import Mathlib

/-!
Shallow embedding of the geolib repository layer
(`src/geolibrary/models.py` and `src/geolibrary/repository.py`).

The database-backed store is modelled as explicit state: a list of
`Location` rows in full-scan (insertion) order, a list of `Photo` rows, and
the next surrogate id the storage assigns on insert.  SQLAlchemy queries
(`session.scalar(select(Location).where(...))`) return the first matching
row of the scan, modelled with `List.find?`.  Python floats are modelled as
rationals.  Mutating operations return the error outcome together with the
resulting store; on an error raised before any write the store is returned
unchanged, matching the rollback in `LocationRepository.__exit__`.
-/

namespace Geolib

/-- Model of `models.Location`: columns `id` (integer PK), `name`, `description`
(nullable), `latitude`, `longitude`. The `photos` relationship lives in
`Store.photos` (rows of the `photos` table), not inside the row itself. -/
structure Location where
  id : Nat
  name : String
  description : Option String
  latitude : ℚ
  longitude : ℚ
  deriving DecidableEq, Repr

/-- Model of `models.Photo`: columns `id` (integer PK), `filename`,
`location_id` (non-null FK to `locations.id`). -/
structure Photo where
  id : Nat
  filename : String
  location_id : Nat
  deriving DecidableEq, Repr

/-- The persistent state behind a `LocationRepository` session: the two
tables in scan order, plus the next id the storage will assign. -/
structure Store where
  locations : List Location
  photos : List Photo
  nextLocationId : Nat
  deriving DecidableEq, Repr

/-- Facts the storage engine guarantees about any reachable database state:
every assigned id is below the next id to be assigned, and primary keys are
unique. -/
def StoreWF (s : Store) : Prop :=
  (∀ l ∈ s.locations, l.id < s.nextLocationId) ∧
    (s.locations.map Location.id).Nodup

instance (s : Store) : Decidable (StoreWF s) := by
  unfold StoreWF; infer_instance

/-- The errors the repository raises itself.  `create_location` and
`update_location` raise `ValueError(f"Location with name ... already
exists")`; the carried string is the offending name. -/
inductive RepoError where
  | duplicateName (name : String)
  deriving DecidableEq, Repr

/-- A Python value passed as a keyword argument to `update_location`.  The
signature annotates `**kwargs: str | float | None`; integers also pass
through at runtime (annotations are unenforced) and matter because integer
columns such as `id` can be assigned.  Collection values are not
representable and no claim exercises them. -/
inductive PyValue where
  | str (s : String)
  | num (q : ℚ)
  | int (n : Nat)
  | pynone
  deriving DecidableEq, Repr

/-- Model of `LocationRepository.create_location`: looks up an existing row with the
same name (`session.scalar` on an exact-match select); if one exists raises
the duplicate-name `ValueError` before any write, otherwise inserts the new
row (storage assigns the next id) and commits. -/
def create_location (s : Store) (name : String) (latitude longitude : ℚ)
    (description : Option String) : Except RepoError Location × Store :=
  if (s.locations.find? (fun l => l.name == name)).isSome then
    (.error (.duplicateName name), s)
  else
    let location : Location :=
      { id := s.nextLocationId, name := name, description := description,
        latitude := latitude, longitude := longitude }
    (.ok location,
      { s with locations := s.locations ++ [location],
               nextLocationId := s.nextLocationId + 1 })

/-- Model of `LocationRepository.get_location_by_id`: first row whose `id` matches,
or `None`. -/
def get_location_by_id (s : Store) (location_id : Nat) : Option Location :=
  s.locations.find? (fun l => l.id == location_id)

/-- Model of `LocationRepository.get_location_by_name`: first row whose `name`
matches exactly (case-sensitive), or `None`. -/
def get_location_by_name (s : Store) (name : String) : Option Location :=
  s.locations.find? (fun l => l.name == name)

/-- The attribute names a `Location` instance exposes for its mapped
columns and relationship; `hasattr(location, key)` is true exactly for
these among the data-bearing fields.  (Python's `hasattr` is also true for
methods and class-level names; no claim involves such keys.) -/
def locationHasAttr (key : String) : Bool :=
  key ∈ ["id", "name", "description", "latitude", "longitude", "photos"]

/-- One `setattr(location, key, value)` guarded by
`hasattr(location, key)`, as in the update loop of
`LocationRepository.update_location`.  A key that is not an attribute is
skipped.  Values are modelled at the columns' declared types; assigning a
value of a mismatched Python type (and assignment to the `photos`
relationship) is outside the model and exercised by no claim. -/
def setattrLoc (l : Location) (key : String) (v : PyValue) : Location :=
  if key = "id" then
    match v with
    | .int n => { l with id := n }
    | _ => l
  else if key = "name" then
    match v with
    | .str t => { l with name := t }
    | _ => l
  else if key = "description" then
    match v with
    | .str t => { l with description := some t }
    | .pynone => { l with description := Option.none }
    | _ => l
  else if key = "latitude" then
    match v with
    | .num q => { l with latitude := q }
    | .int n => { l with latitude := (n : ℚ) }
    | _ => l
  else if key = "longitude" then
    match v with
    | .num q => { l with longitude := q }
    | .int n => { l with longitude := (n : ℚ) }
    | _ => l
  else l

/-- Replace the first row whose `id` matches with the updated row: the
update mutates, in place, the object `get_location_by_id` returned. -/
def replaceFirstById : List Location → Nat → Location → List Location
  | [], _, _ => []
  | l :: rest, lid, newLoc =>
    if l.id == lid then newLoc :: rest else l :: replaceFirstById rest lid newLoc

/-- Model of `LocationRepository.update_location`: returns `None` when the id is
absent; when the `name` key is supplied and its value differs from the
current name, re-runs the uniqueness lookup and raises the duplicate-name
`ValueError` before any write; otherwise applies `setattr` for every
supplied key that is an attribute, in keyword order, and commits.  A
non-string `name` value compares unequal to the current name and its
uniqueness lookup matches no row. -/
def update_location (s : Store) (location_id : Nat)
    (kwargs : List (String × PyValue)) :
    Except RepoError (Option Location) × Store :=
  match get_location_by_id s location_id with
  | Option.none => (.ok Option.none, s)
  | some location =>
    let newLoc := kwargs.foldl (fun acc kv => setattrLoc acc kv.1 kv.2) location
    let committed : Except RepoError (Option Location) × Store :=
      (.ok (some newLoc),
        { s with locations := replaceFirstById s.locations location_id newLoc })
    match kwargs.lookup "name" with
    | some (.str t) =>
      if t = location.name then committed
      else if (s.locations.find? (fun l => l.name == t)).isSome then
        (.error (.duplicateName t), s)
      else committed
    | some _ => committed
    | Option.none => committed

/-- Model of `LocationRepository.delete_location`: returns `False` when the id is
absent; otherwise deletes the row and, through the
`cascade="all, delete-orphan"` relationship, every `Photo` row whose
`location_id` references it, then commits and returns `True`. -/
def delete_location (s : Store) (location_id : Nat) : Bool × Store :=
  match get_location_by_id s location_id with
  | Option.none => (false, s)
  | some location =>
    (true,
      { s with
        locations := s.locations.eraseP (fun l => l.id == location_id),
        photos := s.photos.filter (fun p => p.location_id != location.id) })

/-- Model of `LocationRepository.list_locations`: all rows in scan order. -/
def list_locations (s : Store) : List Location :=
  s.locations

/-- The body of the ray-casting loop in
`LocationRepository._is_point_in_polygon`, for one edge `(p1, p2)` of the
polygon: horizontal edges are skipped; when the edge straddles the point's
latitude and the point's longitude is within reach, a vertical edge
toggles, and otherwise the crossing longitude is interpolated and the flag
toggles when the point is at or before it. -/
def edgeStep (point : ℚ × ℚ) (inside : Bool) (edge : (ℚ × ℚ) × (ℚ × ℚ)) :
    Bool :=
  let px := point.1
  let py := point.2
  let p1x := edge.1.1
  let p1y := edge.1.2
  let p2x := edge.2.1
  let p2y := edge.2.2
  if p1y ≠ p2y then
    if py > min p1y p2y ∧ py ≤ max p1y p2y then
      if px ≤ max p1x p2x then
        if p1x = p2x then !inside
        else
          let xinters := (py - p1y) * (p2x - p1x) / (p2y - p1y) + p1x
          if px ≤ xinters then !inside else inside
      else inside
    else inside
  else inside

/-- The edges the loop `for i in range(1, n + 1): p2 = polygon[i % n]`
visits: consecutive vertex pairs, the last vertex closing back to the
first. -/
def polygonEdges (polygon : List (ℚ × ℚ)) : List ((ℚ × ℚ) × (ℚ × ℚ)) :=
  polygon.zip (polygon.rotate 1)

/-- Model of `LocationRepository._is_point_in_polygon`: `False` for fewer than 3
vertices, otherwise the parity of edge crossings accumulated by
`edgeStep` starting from `False`. -/
def is_point_in_polygon (point : ℚ × ℚ) (polygon : List (ℚ × ℚ)) : Bool :=
  if polygon.length < 3 then false
  else (polygonEdges polygon).foldl (edgeStep point) false

/-- Model of `LocationRepository.get_locations_in_perimeter`: loads all rows (full
scan) and keeps, in scan order, those whose `(latitude, longitude)` passes
the point-in-polygon test. -/
def get_locations_in_perimeter (s : Store) (polygon_points : List (ℚ × ℚ)) :
    List Location :=
  (list_locations s).filter
    (fun loc => is_point_in_polygon (loc.latitude, loc.longitude) polygon_points)

/-! Helper lemmas shared by the claim theorems. -/

/-- Finding in an appended list when the first part has no match. -/
lemma find?_append_of_none {p : Location → Bool} {xs ys : List Location}
    (h : xs.find? p = Option.none) : (xs ++ ys).find? p = ys.find? p := by
  rw [List.find?_append, h, Option.none_or]

/-- A row whose id differs from the replaced one survives the replacement. -/
lemma mem_replaceFirstById_of_ne {locs : List Location} {l : Location}
    {lid : Nat} {newLoc : Location} (hmem : l ∈ locs) (hne : l.id ≠ lid) :
    l ∈ replaceFirstById locs lid newLoc := by
  induction locs with
  | nil => exact absurd hmem (List.not_mem_nil l)
  | cons a rest ih =>
    rcases List.mem_cons.mp hmem with rfl | hrest
    · unfold replaceFirstById
      split
      · next hcond => exact absurd (by simpa using hcond) hne
      · exact List.mem_cons_self _ _
    · unfold replaceFirstById
      split
      · exact List.mem_cons_of_mem _ hrest
      · exact List.mem_cons_of_mem _ (ih hrest)

/-- Replacement preserves the list length. -/
lemma length_replaceFirstById (locs : List Location) (lid : Nat)
    (newLoc : Location) :
    (replaceFirstById locs lid newLoc).length = locs.length := by
  induction locs with
  | nil => rfl
  | cons a rest ih =>
    unfold replaceFirstById
    split <;> simp [ih]

/-- Replacing the found row by itself leaves the list unchanged. -/
lemma replaceFirstById_find?_self {locs : List Location} {lid : Nat}
    {loc : Location} (h : locs.find? (fun l => l.id == lid) = some loc) :
    replaceFirstById locs lid loc = locs := by
  induction locs with
  | nil => simp [List.find?] at h
  | cons a rest ih =>
    unfold replaceFirstById
    by_cases hc : (a.id == lid) = true
    · rw [List.find?_cons_of_pos (p := fun l => l.id == lid) rest hc] at h
      cases h
      rw [if_pos hc]
    · rw [List.find?_cons_of_neg (p := fun l => l.id == lid) rest
        (by simpa using hc)] at h
      rw [if_neg hc, ih h]

/-- A setattr with a key other than `name` leaves `name` unchanged. -/
lemma setattrLoc_name {l : Location} {key : String} {v : PyValue}
    (h : key ≠ "name") : (setattrLoc l key v).name = l.name := by
  unfold setattrLoc
  split_ifs with h1 h2 h3 h4 h5 <;> first
    | exact absurd h2 h
    | cases v <;> rfl

/-- A setattr with a key other than `description` leaves `description`
unchanged. -/
lemma setattrLoc_description {l : Location} {key : String} {v : PyValue}
    (h : key ≠ "description") :
    (setattrLoc l key v).description = l.description := by
  unfold setattrLoc
  split_ifs with h1 h2 h3 h4 h5 <;> first
    | exact absurd h3 h
    | cases v <;> rfl

/-- A setattr with a key other than `latitude` leaves `latitude`
unchanged. -/
lemma setattrLoc_latitude {l : Location} {key : String} {v : PyValue}
    (h : key ≠ "latitude") : (setattrLoc l key v).latitude = l.latitude := by
  unfold setattrLoc
  split_ifs with h1 h2 h3 h4 h5 <;> first
    | exact absurd h4 h
    | cases v <;> rfl

/-- A setattr with a key other than `longitude` leaves `longitude`
unchanged. -/
lemma setattrLoc_longitude {l : Location} {key : String} {v : PyValue}
    (h : key ≠ "longitude") : (setattrLoc l key v).longitude = l.longitude := by
  unfold setattrLoc
  split_ifs with h1 h2 h3 h4 h5 <;> first
    | exact absurd h5 h
    | cases v <;> rfl

/-- A setattr with a key that is not a `Location` attribute is skipped. -/
lemma setattrLoc_of_not_attr {l : Location} {key : String} {v : PyValue}
    (h : locationHasAttr key = false) : setattrLoc l key v = l := by
  unfold locationHasAttr at h
  simp only [List.mem_cons, List.not_mem_nil, or_false, decide_eq_false_iff_not,
    not_or] at h
  obtain ⟨h1, h2, h3, h4, h5, _⟩ := h
  unfold setattrLoc
  rw [if_neg h1, if_neg h2, if_neg h3, if_neg h4, if_neg h5]

/-- Folding setattr over keyword arguments preserves any projection that
every single setattr preserves. -/
lemma foldl_setattrLoc_preserve {α : Type} (f : Location → α) :
    ∀ (kwargs : List (String × PyValue)) (l : Location),
      (∀ kv ∈ kwargs, ∀ l' : Location, f (setattrLoc l' kv.1 kv.2) = f l') →
      f (kwargs.foldl (fun acc kv => setattrLoc acc kv.1 kv.2) l) = f l := by
  intro kwargs
  induction kwargs with
  | nil => intro l _; rfl
  | cons kv rest ih =>
    intro l h
    rw [List.foldl_cons,
      ih _ (fun x hx l' => h x (List.mem_cons_of_mem _ hx) l'),
      h kv (List.mem_cons_self _ _)]

/-- A successful lookup result is a member of the association list. -/
lemma lookup_mem {k : String} {v : PyValue}
    {kwargs : List (String × PyValue)} (h : kwargs.lookup k = some v) :
    (k, v) ∈ kwargs := by
  induction kwargs with
  | nil => simp [List.lookup] at h
  | cons kv rest ih =>
    obtain ⟨k', v'⟩ := kv
    rw [List.lookup_cons] at h
    cases hc : k == k' with
    | false =>
      rw [hc] at h
      exact List.mem_cons_of_mem _ (ih h)
    | true =>
      rw [hc] at h
      injection h with h
      subst h
      have hk : k = k' := by simpa using hc
      subst hk
      exact List.mem_cons_self _ _

/-! Claim theorems. -/

/-- C1.  Round-trip: when `create_location` succeeds on a well-formed
store, `get_location_by_id` on the returned id yields a row whose `name`,
`latitude`, `longitude` and `description` are exactly the values passed. -/
theorem create_then_get_roundtrip
    (s : Store) (name : String) (lat lon : ℚ) (desc : Option String)
    (loc : Location) (s' : Store) (hwf : StoreWF s)
    (h : create_location s name lat lon desc = (.ok loc, s')) :
    get_location_by_id s' loc.id = some loc ∧
    loc.name = name ∧ loc.latitude = lat ∧ loc.longitude = lon ∧
    loc.description = desc := by
  unfold create_location at h
  split at h
  · exact absurd (congrArg Prod.fst h) (by simp)
  · simp only [Prod.mk.injEq, Except.ok.injEq] at h
    obtain ⟨rfl, rfl⟩ := h
    refine ⟨?_, rfl, rfl, rfl, rfl⟩
    unfold get_location_by_id
    have hnone : s.locations.find?
        (fun l => l.id == s.nextLocationId) = Option.none := by
      refine List.find?_eq_none.mpr (fun l hl => ?_)
      simpa using Nat.ne_of_lt (hwf.1 l hl)
    dsimp only
    rw [find?_append_of_none hnone]
    exact List.find?_cons_of_pos _ (by simp)

/-- C1 witness: a concrete successful create followed by the lookup. -/
theorem create_then_get_roundtrip_witness :
    get_location_by_id
        (Store.mk [Location.mk 1 "A" Option.none 1 2] [] 2)
        (Location.mk 1 "A" Option.none 1 2).id =
      some (Location.mk 1 "A" Option.none 1 2) ∧
    (Location.mk 1 "A" Option.none 1 2).name = "A" ∧
    (Location.mk 1 "A" Option.none 1 2).latitude = 1 ∧
    (Location.mk 1 "A" Option.none 1 2).longitude = 2 ∧
    (Location.mk 1 "A" Option.none 1 2).description = Option.none :=
  create_then_get_roundtrip (Store.mk [] [] 1) "A" 1 2 Option.none
    (Location.mk 1 "A" Option.none 1 2)
    (Store.mk [Location.mk 1 "A" Option.none 1 2] [] 2)
    (by decide) rfl

/-- C2.  When some stored row already carries the name, `create_location`
fails with the duplicate-name error, whatever the coordinates and
description, and returns the store unchanged. -/
theorem create_duplicate_name_fails
    (s : Store) (n : String) (lat lon : ℚ) (desc : Option String)
    (h : ∃ l ∈ s.locations, l.name = n) :
    create_location s n lat lon desc = (.error (.duplicateName n), s) := by
  unfold create_location
  rw [if_pos]
  exact List.find?_isSome.mpr (by
    obtain ⟨l, hl, hn⟩ := h
    exact ⟨l, hl, by simp [hn]⟩)

/-- C2 witness: creating a second "A" fails and leaves the store as it
was. -/
theorem create_duplicate_name_fails_witness :
    create_location (Store.mk [Location.mk 1 "A" Option.none 0 0] [] 2)
        "A" 3 4 (some "d") =
      (.error (.duplicateName "A"),
        Store.mk [Location.mk 1 "A" Option.none 0 0] [] 2) :=
  create_duplicate_name_fails
    (Store.mk [Location.mk 1 "A" Option.none 0 0] [] 2) "A" 3 4 (some "d")
    ⟨Location.mk 1 "A" Option.none 0 0, by decide, rfl⟩

/-- C3.  The perimeter query equals the full scan filtered by the
point-in-polygon test on `(latitude, longitude)`: it is a sublist of the
scan (so scan order is preserved) and contains a row exactly when the scan
contains it and the test accepts it. -/
theorem perimeter_query_is_scan_filter
    (s : Store) (polygon : List (ℚ × ℚ)) :
    get_locations_in_perimeter s polygon =
      (list_locations s).filter
        (fun loc => is_point_in_polygon (loc.latitude, loc.longitude) polygon) ∧
    (get_locations_in_perimeter s polygon).Sublist (list_locations s) ∧
    ∀ loc, loc ∈ get_locations_in_perimeter s polygon ↔
      loc ∈ list_locations s ∧
        is_point_in_polygon (loc.latitude, loc.longitude) polygon = true := by
  refine ⟨rfl, List.filter_sublist _, fun loc => ?_⟩
  exact List.mem_filter

/-- C4 counterexample: for the vertical edge from (0,0) to (0,10) and the
point (5,5) the latitude straddle condition holds, yet the inside flag is
not toggled, because the point's longitude exceeds the edge's: the toggle
is not unconditional in the other coordinate. -/
theorem vertical_edge_toggle_counterexample :
    (min (0 : ℚ) 10 < 5 ∧ (5 : ℚ) ≤ max (0 : ℚ) 10) ∧
    edgeStep (5, 5) false ((0, 0), (0, 10)) ≠ !false := by decide

/-- C4 (amended).  For a vertical edge satisfying the latitude straddle
condition, the inside flag is toggled exactly when the point's first
coordinate is at most the edge's shared first coordinate, and is left
unchanged otherwise. -/
theorem vertical_edge_toggle_iff
    (inside : Bool) (px py p1x p1y p2x p2y : ℚ)
    (hvert : p1x = p2x)
    (hlow : min p1y p2y < py) (hhigh : py ≤ max p1y p2y) :
    edgeStep (px, py) inside ((p1x, p1y), (p2x, p2y)) =
      if px ≤ p1x then !inside else inside := by
  have hy : p1y ≠ p2y := by
    intro e
    rw [e, min_self] at hlow
    rw [e, max_self] at hhigh
    exact absurd hlow (not_lt.mpr hhigh)
  subst hvert
  unfold edgeStep
  dsimp only
  rw [if_pos hy, if_pos ⟨hlow, hhigh⟩, max_self]
  by_cases hpx : px ≤ p1x <;> simp [hpx]

/-- C4 witness: the edge from (0,0) to (0,10) against the point (0,5). -/
theorem vertical_edge_toggle_iff_witness :
    edgeStep (0, 5) false ((0, 0), (0, 10)) =
      if (0 : ℚ) ≤ 0 then !false else false :=
  vertical_edge_toggle_iff false 0 5 0 0 0 10 rfl (by decide) (by decide)

/-- C5.  Contrary to the id-immutability invariant, `update_location`
applied with an `id` keyword rewrites the primary key of the stored row:
`hasattr(location, "id")` holds, so the update loop assigns it. -/
theorem update_location_changes_id :
    update_location (Store.mk [Location.mk 1 "A" Option.none 0 0] [] 2) 1
        [("id", PyValue.int 2)] =
      (.ok (some (Location.mk 2 "A" Option.none 0 0)),
        Store.mk [Location.mk 2 "A" Option.none 0 0] [] 2) := by rfl

/-- C8.  On an id absent from the store, `update_location` returns the
explicit absent value and `delete_location` returns false; neither call
changes the store. -/
theorem update_delete_missing_id
    (s : Store) (lid : Nat) (kwargs : List (String × PyValue))
    (h : ∀ l ∈ s.locations, l.id ≠ lid) :
    update_location s lid kwargs = (.ok Option.none, s) ∧
    delete_location s lid = (false, s) := by
  have hf : get_location_by_id s lid = Option.none := by
    unfold get_location_by_id
    exact List.find?_eq_none.mpr (fun l hl => by simpa using h l hl)
  exact ⟨by unfold update_location; rw [hf], by unfold delete_location; rw [hf]⟩

/-- C8 witness: id 7 is absent from a one-row store. -/
theorem update_delete_missing_id_witness :
    update_location (Store.mk [Location.mk 1 "A" Option.none 0 0] [] 2) 7
        [("description", PyValue.str "d")] =
      (.ok Option.none, Store.mk [Location.mk 1 "A" Option.none 0 0] [] 2) ∧
    delete_location (Store.mk [Location.mk 1 "A" Option.none 0 0] [] 2) 7 =
      (false, Store.mk [Location.mk 1 "A" Option.none 0 0] [] 2) :=
  update_delete_missing_id _ 7 _ (by decide)

/-- Shape of a successful update on an existing row: the returned row is
the setattr fold over the looked-up row, and the store holds it in the
row's place. -/
lemma update_location_ok
    {s : Store} {lid : Nat} {kwargs : List (String × PyValue)}
    {loc loc' : Location} {s' : Store}
    (hfind : get_location_by_id s lid = some loc)
    (h : update_location s lid kwargs = (.ok (some loc'), s')) :
    loc' = kwargs.foldl (fun acc kv => setattrLoc acc kv.1 kv.2) loc ∧
    s' = { s with locations := replaceFirstById s.locations lid loc' } := by
  unfold update_location at h
  rw [hfind] at h
  dsimp only at h
  have extract :
      ((Except.ok (some (kwargs.foldl (fun acc kv => setattrLoc acc kv.1 kv.2)
            loc)) : Except RepoError (Option Location)),
          { s with
            locations :=
              replaceFirstById s.locations lid
                (kwargs.foldl (fun acc kv => setattrLoc acc kv.1 kv.2) loc) }) =
        (.ok (some loc'), s') →
      loc' = kwargs.foldl (fun acc kv => setattrLoc acc kv.1 kv.2) loc ∧
        s' = { s with locations := replaceFirstById s.locations lid loc' } := by
    intro hc
    simp only [Prod.mk.injEq, Except.ok.injEq, Option.some.injEq] at hc
    obtain ⟨h1, h2⟩ := hc
    subst h1
    exact ⟨rfl, h2.symm⟩
  rcases hl : kwargs.lookup "name" with _ | v
  · rw [hl] at h
    exact extract h
  · rw [hl] at h
    rcases v with t | q | n | _
    · dsimp only at h
      by_cases ht : t = loc.name
      · rw [if_pos ht] at h
        exact extract h
      · rw [if_neg ht] at h
        by_cases hex : (s.locations.find? (fun l => l.name == t)).isSome = true
        · rw [if_pos hex] at h
          exact absurd (congrArg Prod.fst h) (by simp)
        · rw [if_neg hex] at h
          exact extract h
    · exact extract h
    · exact extract h
    · exact extract h

/-- Dropped and kept photo rows partition the photo table. -/
lemma length_filter_bne_add_countP (photos : List Photo) (i : Nat) :
    (photos.filter (fun p => p.location_id != i)).length +
      photos.countP (fun p => p.location_id == i) = photos.length := by
  induction photos with
  | nil => rfl
  | cons p rest ih =>
    by_cases hc : p.location_id = i <;>
      simp [List.filter_cons, List.countP_cons, hc] <;> omega

/-- After erasing the row an id-lookup found, under unique ids the lookup
finds nothing. -/
lemma find?_eraseP_eq_none {locs : List Location} {lid : Nat} {loc : Location}
    (hnd : (locs.map Location.id).Nodup)
    (h : locs.find? (fun l => l.id == lid) = some loc) :
    (locs.eraseP (fun l => l.id == lid)).find? (fun l => l.id == lid) =
      Option.none := by
  induction locs with
  | nil => simp [List.find?] at h
  | cons a rest ih =>
    rw [List.map_cons, List.nodup_cons] at hnd
    by_cases hc : (a.id == lid) = true
    · rw [List.eraseP_cons_of_pos (p := fun l : Location => l.id == lid) hc]
      refine List.find?_eq_none.mpr (fun l hl => ?_)
      have ha : a.id = lid := by simpa using hc
      intro hlid
      have : l.id = a.id := by rw [ha]; simpa using hlid
      exact hnd.1 (this ▸ List.mem_map_of_mem Location.id hl)
    · rw [List.eraseP_cons_of_neg (p := fun l : Location => l.id == lid) hc]
      rw [List.find?_cons_of_neg rest hc] at h
      rw [List.find?_cons_of_neg (p := fun l : Location => l.id == lid)
        (List.eraseP (fun l => l.id == lid) rest) hc]
      exact ih hnd.2 h

/-- C6.  A successful partial update changes only supplied fields: any of
`name`, `description`, `latitude`, `longitude` not among the keywords is
unchanged on the returned row, rows with other ids all survive, and no row
is added or removed. -/
theorem update_preserves_unsupplied_fields
    (s : Store) (lid : Nat) (kwargs : List (String × PyValue))
    (loc loc' : Location) (s' : Store)
    (hfind : get_location_by_id s lid = some loc)
    (h : update_location s lid kwargs = (.ok (some loc'), s')) :
    ("name" ∉ kwargs.map Prod.fst → loc'.name = loc.name) ∧
    ("description" ∉ kwargs.map Prod.fst →
      loc'.description = loc.description) ∧
    ("latitude" ∉ kwargs.map Prod.fst → loc'.latitude = loc.latitude) ∧
    ("longitude" ∉ kwargs.map Prod.fst → loc'.longitude = loc.longitude) ∧
    (∀ l ∈ s.locations, l.id ≠ lid → l ∈ s'.locations) ∧
    s'.locations.length = s.locations.length := by
  obtain ⟨hl', hs'⟩ := update_location_ok hfind h
  have hkey : ∀ (k : String), k ∉ kwargs.map Prod.fst →
      ∀ kv ∈ kwargs, kv.1 ≠ k := by
    intro k hk kv hkv e
    exact hk (e ▸ List.mem_map_of_mem Prod.fst hkv)
  refine ⟨?_, ?_, ?_, ?_, ?_, ?_⟩
  · intro hn
    rw [hl']
    exact foldl_setattrLoc_preserve Location.name kwargs loc
      (fun kv hkv l' => setattrLoc_name (hkey _ hn kv hkv))
  · intro hn
    rw [hl']
    exact foldl_setattrLoc_preserve Location.description kwargs loc
      (fun kv hkv l' => setattrLoc_description (hkey _ hn kv hkv))
  · intro hn
    rw [hl']
    exact foldl_setattrLoc_preserve Location.latitude kwargs loc
      (fun kv hkv l' => setattrLoc_latitude (hkey _ hn kv hkv))
  · intro hn
    rw [hl']
    exact foldl_setattrLoc_preserve Location.longitude kwargs loc
      (fun kv hkv l' => setattrLoc_longitude (hkey _ hn kv hkv))
  · intro l hl hne
    rw [hs']
    exact mem_replaceFirstById_of_ne hl hne
  · rw [hs']
    exact length_replaceFirstById s.locations lid loc'

/-- C6 witness: updating only the description of row 1 in a two-row
store. -/
theorem update_preserves_unsupplied_fields_witness :
    ("name" ∉ ([("description", PyValue.str "e")]).map Prod.fst →
      (Location.mk 1 "A" (some "e") 3 4).name =
        (Location.mk 1 "A" (some "d") 3 4).name) ∧
    ("description" ∉ ([("description", PyValue.str "e")]).map Prod.fst →
      (Location.mk 1 "A" (some "e") 3 4).description =
        (Location.mk 1 "A" (some "d") 3 4).description) ∧
    ("latitude" ∉ ([("description", PyValue.str "e")]).map Prod.fst →
      (Location.mk 1 "A" (some "e") 3 4).latitude =
        (Location.mk 1 "A" (some "d") 3 4).latitude) ∧
    ("longitude" ∉ ([("description", PyValue.str "e")]).map Prod.fst →
      (Location.mk 1 "A" (some "e") 3 4).longitude =
        (Location.mk 1 "A" (some "d") 3 4).longitude) ∧
    (∀ l ∈ (Store.mk [Location.mk 1 "A" (some "d") 3 4,
        Location.mk 2 "B" Option.none 5 6] [] 3).locations, l.id ≠ 1 →
      l ∈ (Store.mk [Location.mk 1 "A" (some "e") 3 4,
        Location.mk 2 "B" Option.none 5 6] [] 3).locations) ∧
    (Store.mk [Location.mk 1 "A" (some "e") 3 4,
      Location.mk 2 "B" Option.none 5 6] [] 3).locations.length =
      (Store.mk [Location.mk 1 "A" (some "d") 3 4,
        Location.mk 2 "B" Option.none 5 6] [] 3).locations.length :=
  update_preserves_unsupplied_fields
    (Store.mk [Location.mk 1 "A" (some "d") 3 4,
      Location.mk 2 "B" Option.none 5 6] [] 3)
    1 [("description", PyValue.str "e")]
    (Location.mk 1 "A" (some "d") 3 4) (Location.mk 1 "A" (some "e") 3 4)
    (Store.mk [Location.mk 1 "A" (some "e") 3 4,
      Location.mk 2 "B" Option.none 5 6] [] 3)
    rfl rfl

/-- C7.  On an existing row, the update fails with the duplicate-name
error exactly when a string `name` keyword is supplied whose value differs
from the current name and is already carried by a stored row; supplying
the row's own current name never raises it. -/
theorem update_duplicate_name_iff
    (s : Store) (lid : Nat) (kwargs : List (String × PyValue)) (loc : Location)
    (hfind : get_location_by_id s lid = some loc) :
    ((∃ n, (update_location s lid kwargs).1 = .error (.duplicateName n)) ↔
      ∃ n, kwargs.lookup "name" = some (.str n) ∧ n ≠ loc.name ∧
        ∃ l ∈ s.locations, l.name = n) ∧
    (kwargs.lookup "name" = some (.str loc.name) →
      ∃ loc', (update_location s lid kwargs).1 = .ok (some loc')) := by
  unfold update_location
  rw [hfind]
  dsimp only
  rcases hl : kwargs.lookup "name" with _ | v
  · dsimp only
    refine ⟨⟨?_, ?_⟩, ?_⟩
    · rintro ⟨n, hn⟩
      exact Except.noConfusion hn
    · rintro ⟨n, hn, _⟩
      exact Option.noConfusion hn
    · intro hc
      exact Option.noConfusion hc
  · rcases v with t | q | n0 | _
    · dsimp only
      by_cases ht : t = loc.name
      · rw [if_pos ht]
        dsimp only
        refine ⟨⟨?_, ?_⟩, ?_⟩
        · rintro ⟨n, hn⟩
          exact Except.noConfusion hn
        · rintro ⟨n, hn, hne, _⟩
          injection hn with hn
          injection hn with hn
          exact (hne (hn ▸ ht)).elim
        · intro _
          exact ⟨_, rfl⟩
      · rw [if_neg ht]
        by_cases hex : (s.locations.find? (fun l => l.name == t)).isSome = true
        · rw [if_pos hex]
          dsimp only
          refine ⟨⟨?_, ?_⟩, ?_⟩
          · rintro ⟨n, hn⟩
            obtain ⟨l, hlmem, hlname⟩ := List.find?_isSome.mp hex
            exact ⟨t, rfl, ht, l, hlmem, by simpa using hlname⟩
          · rintro ⟨n, hn, hne, hex2⟩
            exact ⟨t, rfl⟩
          · intro hc
            injection hc with hc
            injection hc with hc
            exact absurd hc ht
        · rw [if_neg hex]
          dsimp only
          refine ⟨⟨?_, ?_⟩, ?_⟩
          · rintro ⟨n, hn⟩
            exact Except.noConfusion hn
          · rintro ⟨n, hn, hne, l, hlmem, hlname⟩
            injection hn with hn
            injection hn with hn
            exact absurd (List.find?_isSome.mpr
              ⟨l, hlmem, by simp [hlname, hn]⟩) hex
          · intro hc
            injection hc with hc
            injection hc with hc
            exact absurd hc ht
    · dsimp only
      refine ⟨⟨?_, ?_⟩, ?_⟩
      · rintro ⟨n, hn⟩
        exact Except.noConfusion hn
      · rintro ⟨n, hn, _⟩
        injection hn with hn
        exact PyValue.noConfusion hn
      · intro hc
        injection hc with hc
        exact PyValue.noConfusion hc
    · dsimp only
      refine ⟨⟨?_, ?_⟩, ?_⟩
      · rintro ⟨n, hn⟩
        exact Except.noConfusion hn
      · rintro ⟨n, hn, _⟩
        injection hn with hn
        exact PyValue.noConfusion hn
      · intro hc
        injection hc with hc
        exact PyValue.noConfusion hc
    · dsimp only
      refine ⟨⟨?_, ?_⟩, ?_⟩
      · rintro ⟨n, hn⟩
        exact Except.noConfusion hn
      · rintro ⟨n, hn, _⟩
        injection hn with hn
        exact PyValue.noConfusion hn
      · intro hc
        injection hc with hc
        exact PyValue.noConfusion hc

/-- C7 witness: renaming row 1 to the taken name "B" in a two-row
store. -/
theorem update_duplicate_name_iff_witness :
    ((∃ n, (update_location (Store.mk [Location.mk 1 "A" Option.none 0 0,
          Location.mk 2 "B" Option.none 0 0] [] 3) 1
        [("name", PyValue.str "B")]).1 = .error (.duplicateName n)) ↔
      ∃ n, ([("name", PyValue.str "B")]).lookup "name" = some (.str n) ∧
        n ≠ (Location.mk 1 "A" Option.none 0 0).name ∧
        ∃ l ∈ (Store.mk [Location.mk 1 "A" Option.none 0 0,
          Location.mk 2 "B" Option.none 0 0] [] 3).locations, l.name = n) ∧
    (([("name", PyValue.str "B")]).lookup "name" =
        some (.str (Location.mk 1 "A" Option.none 0 0).name) →
      ∃ loc', (update_location (Store.mk [Location.mk 1 "A" Option.none 0 0,
          Location.mk 2 "B" Option.none 0 0] [] 3) 1
        [("name", PyValue.str "B")]).1 = .ok (some loc')) :=
  update_duplicate_name_iff
    (Store.mk [Location.mk 1 "A" Option.none 0 0,
      Location.mk 2 "B" Option.none 0 0] [] 3)
    1 [("name", PyValue.str "B")] (Location.mk 1 "A" Option.none 0 0) rfl

/-- C9.  Deleting an existing row returns true, removes the row (under
unique ids the id no longer resolves), and removes exactly the photo rows
that referenced it: the remaining photo table is the original filtered to
other owners, no remaining photo references the deleted id, and the
removed count is the number of owned photos. -/
theorem delete_cascades_photos
    (s : Store) (lid : Nat) (loc : Location)
    (hnd : (s.locations.map Location.id).Nodup)
    (hfind : get_location_by_id s lid = some loc) :
    (delete_location s lid).1 = true ∧
    (delete_location s lid).2.photos =
      s.photos.filter (fun p => p.location_id != loc.id) ∧
    (∀ p ∈ (delete_location s lid).2.photos, p.location_id ≠ loc.id) ∧
    ((delete_location s lid).2.photos).length +
        s.photos.countP (fun p => p.location_id == loc.id) =
      s.photos.length ∧
    get_location_by_id (delete_location s lid).2 lid = Option.none := by
  unfold delete_location
  rw [hfind]
  dsimp only
  refine ⟨rfl, rfl, ?_, ?_, ?_⟩
  · intro p hp
    have := (List.mem_filter.mp hp).2
    simpa using this
  · exact length_filter_bne_add_countP s.photos loc.id
  · unfold get_location_by_id
    dsimp only
    exact find?_eraseP_eq_none hnd hfind

/-- C9 witness: row 1 owns photos 1 and 3; photo 2 belongs to another
row. -/
theorem delete_cascades_photos_witness :
    (delete_location (Store.mk [Location.mk 1 "A" Option.none 0 0]
        [Photo.mk 1 "f" 1, Photo.mk 2 "g" 2, Photo.mk 3 "h" 1] 2) 1).1 =
      true ∧
    (delete_location (Store.mk [Location.mk 1 "A" Option.none 0 0]
        [Photo.mk 1 "f" 1, Photo.mk 2 "g" 2, Photo.mk 3 "h" 1] 2) 1).2.photos =
      ([Photo.mk 1 "f" 1, Photo.mk 2 "g" 2, Photo.mk 3 "h" 1]).filter
        (fun p => p.location_id != (Location.mk 1 "A" Option.none 0 0).id) ∧
    (∀ p ∈ (delete_location (Store.mk [Location.mk 1 "A" Option.none 0 0]
        [Photo.mk 1 "f" 1, Photo.mk 2 "g" 2, Photo.mk 3 "h" 1] 2) 1).2.photos,
      p.location_id ≠ (Location.mk 1 "A" Option.none 0 0).id) ∧
    ((delete_location (Store.mk [Location.mk 1 "A" Option.none 0 0]
        [Photo.mk 1 "f" 1, Photo.mk 2 "g" 2, Photo.mk 3 "h" 1] 2) 1).2.photos).length +
        ([Photo.mk 1 "f" 1, Photo.mk 2 "g" 2, Photo.mk 3 "h" 1]).countP
          (fun p => p.location_id == (Location.mk 1 "A" Option.none 0 0).id) =
      ([Photo.mk 1 "f" 1, Photo.mk 2 "g" 2, Photo.mk 3 "h" 1]).length ∧
    get_location_by_id (delete_location (Store.mk
        [Location.mk 1 "A" Option.none 0 0]
        [Photo.mk 1 "f" 1, Photo.mk 2 "g" 2, Photo.mk 3 "h" 1] 2) 1).2 1 =
      Option.none :=
  delete_cascades_photos
    (Store.mk [Location.mk 1 "A" Option.none 0 0]
      [Photo.mk 1 "f" 1, Photo.mk 2 "g" 2, Photo.mk 3 "h" 1] 2)
    1 (Location.mk 1 "A" Option.none 0 0) (by decide) rfl

/-- C10.  A keyword whose name is not a `Location` attribute is silently
skipped: an update supplying only such keywords succeeds, returns the row
unchanged, and leaves the store unchanged. -/
theorem update_ignores_unknown_fields
    (s : Store) (lid : Nat) (kwargs : List (String × PyValue)) (loc : Location)
    (hfind : get_location_by_id s lid = some loc)
    (hunk : ∀ kv ∈ kwargs, locationHasAttr kv.1 = false) :
    update_location s lid kwargs = (.ok (some loc), s) := by
  have hfold :
      kwargs.foldl (fun acc kv => setattrLoc acc kv.1 kv.2) loc = loc :=
    foldl_setattrLoc_preserve id kwargs loc
      (fun kv hkv l' => congrArg id (setattrLoc_of_not_attr (hunk kv hkv)))
  have hlook : kwargs.lookup "name" = Option.none := by
    cases hl : kwargs.lookup "name" with
    | none => rfl
    | some v =>
      have := hunk _ (lookup_mem hl)
      simp [locationHasAttr] at this
  unfold update_location
  rw [hfind]
  dsimp only
  rw [hlook]
  dsimp only
  rw [hfold, replaceFirstById_find?_self hfind]

/-- C10 witness: two unknown keywords leave a one-row store untouched. -/
theorem update_ignores_unknown_fields_witness :
    update_location (Store.mk [Location.mk 1 "A" Option.none 0 0] [] 2) 1
        [("category", PyValue.str "x"), ("zzz", PyValue.pynone)] =
      (.ok (some (Location.mk 1 "A" Option.none 0 0)),
        Store.mk [Location.mk 1 "A" Option.none 0 0] [] 2) :=
  update_ignores_unknown_fields
    (Store.mk [Location.mk 1 "A" Option.none 0 0] [] 2) 1
    [("category", PyValue.str "x"), ("zzz", PyValue.pynone)]
    (Location.mk 1 "A" Option.none 0 0) rfl (by decide)

end Geolib
